import Mathlib

/-!
Shallow embedding of the `ringbuffer` repository (files `ringbuffer.h` V1/V2,
`ringbuffer.c` V1/V2, `main.c`).

The buffer stores `unsigned` values in a fixed array of `RING_BUFFER_SIZE = 4`
slots and keeps two absolute `unsigned` cursors `front` and `back`.  C
`unsigned` arithmetic is modelled on `Nat` with explicit reduction modulo
`2 ^ 32`; the stored payload values are never computed with, so they are kept
as plain `Nat`.  The V2 header (`ringbuffer.h`, 10/13/2014) is the primary
implementation (it is the one `main.c` compiles against); the V1 source
(`ringbuffer.c`, 7/7/2014), which wraps indices with bitwise AND instead of
the modulo operator, is embedded separately for the equivalence claim.
-/

/-- Modulus of C `unsigned int` arithmetic: 2 ^ 32. -/
def UINT_MOD : Nat := 4294967296

/-- `#define RING_BUFFER_SIZE 4` (a power of two, checked by the preprocessor). -/
def RING_BUFFER_SIZE : Nat := 4

/-- The `Ring_Buffer` struct: `unsigned volatile front, back;` and
`ring_buffer_t volatile data[RING_BUFFER_SIZE];`.  The array is modelled as a
list of length `RING_BUFFER_SIZE`. -/
structure Ring_Buffer where
  front : Nat
  back : Nat
  data : List Nat
deriving Repr, DecidableEq

/-- C unsigned subtraction `a - b` on 32-bit operands: the value is reduced
modulo `2 ^ 32`, wrapping around when `b > a`. -/
def usub (a b : Nat) : Nat :=
  (a % UINT_MOD + (UINT_MOD - b % UINT_MOD)) % UINT_MOD

/-- `ring_buffer_init`: `rb->front = 0; rb->back = 0;` and `memset` of the
data array to zero. -/
def ring_buffer_init : Ring_Buffer :=
  { front := 0, back := 0, data := List.replicate RING_BUFFER_SIZE 0 }

/-- `ring_buffer_clear`: `memset` of the data array to zero, then
`rb->front = rb->back;`. -/
def ring_buffer_clear (rb : Ring_Buffer) : Ring_Buffer :=
  { rb with data := List.replicate RING_BUFFER_SIZE 0, front := rb.back }

/-- Index written by `ring_buffer_put` (V2): `(++rb->back) % RING_BUFFER_SIZE`,
the pre-incremented back cursor (wrapping at `2 ^ 32`) reduced mod the size. -/
def ring_buffer_put_index (rb : Ring_Buffer) : Nat :=
  ((rb.back + 1) % UINT_MOD) % RING_BUFFER_SIZE

/-- `ring_buffer_put` (V2): `rb->data[(++rb->back) % RING_BUFFER_SIZE] = var;`. -/
def ring_buffer_put (rb : Ring_Buffer) (var : Nat) : Ring_Buffer :=
  { rb with back := (rb.back + 1) % UINT_MOD,
            data := rb.data.set (ring_buffer_put_index rb) var }

/-- The resynchronization step shared by `ring_buffer_get` and
`ring_buffer_peek`: `if (rb->back - rb->front >= RING_BUFFER_SIZE)
rb->front = rb->back - RING_BUFFER_SIZE;`.  Returns the adjusted front. -/
def resyncFront (back front : Nat) : Nat :=
  if RING_BUFFER_SIZE ≤ usub back front then usub back RING_BUFFER_SIZE
  else front

/-- Index read by `ring_buffer_get` after the resynchronization:
`(++rb->front) % RING_BUFFER_SIZE`. -/
def ring_buffer_get_index (rb : Ring_Buffer) : Nat :=
  ((resyncFront rb.back rb.front + 1) % UINT_MOD) % RING_BUFFER_SIZE

/-- `ring_buffer_get` (V2): resynchronize the front cursor if
`rb->back - rb->front >= RING_BUFFER_SIZE`, then
`return rb->data[(++rb->front) % RING_BUFFER_SIZE];`.  Returns the updated
buffer together with the value read. -/
def ring_buffer_get (rb : Ring_Buffer) : Ring_Buffer × Nat :=
  let f1 := (resyncFront rb.back rb.front + 1) % UINT_MOD
  ({ rb with front := f1 }, rb.data.getD (f1 % RING_BUFFER_SIZE) 0)

/-- Index read by `ring_buffer_peek` after the resynchronization:
`(rb->front+1) % RING_BUFFER_SIZE` (the increment wraps at `2 ^ 32` first). -/
def ring_buffer_peek_index (rb : Ring_Buffer) : Nat :=
  ((resyncFront rb.back rb.front + 1) % UINT_MOD) % RING_BUFFER_SIZE

/-- `ring_buffer_peek` (V2): the same resynchronization as `ring_buffer_get`
(it may change the front cursor), then
`return rb->data[(rb->front+1) % RING_BUFFER_SIZE];` without advancing. -/
def ring_buffer_peek (rb : Ring_Buffer) : Ring_Buffer × Nat :=
  let f0 := resyncFront rb.back rb.front
  ({ rb with front := f0 },
   rb.data.getD (((f0 + 1) % UINT_MOD) % RING_BUFFER_SIZE) 0)

/-- `ring_buffer_full`: `rb->back - rb->front >= RING_BUFFER_SIZE` (unsigned
comparison on the wrapped difference). -/
def ring_buffer_full (rb : Ring_Buffer) : Bool :=
  RING_BUFFER_SIZE ≤ usub rb.back rb.front

/-- `ring_buffer_empty`: `rb->back == rb->front`. -/
def ring_buffer_empty (rb : Ring_Buffer) : Bool :=
  rb.back == rb.front

/-- `ring_buffer_count`:
`ring_buffer_full(rb) ? RING_BUFFER_SIZE : rb->back - rb->front`. -/
def ring_buffer_count (rb : Ring_Buffer) : Nat :=
  if ring_buffer_full rb then RING_BUFFER_SIZE else usub rb.back rb.front

/-- Perform a sequence of `ring_buffer_put` calls, first element first. -/
def putList (rb : Ring_Buffer) (vs : List Nat) : Ring_Buffer :=
  vs.foldl ring_buffer_put rb

/-- Perform `n` consecutive `ring_buffer_get` calls, collecting the returned
values in call order. -/
def getN (rb : Ring_Buffer) : Nat → List Nat
  | 0 => []
  | n + 1 =>
    let r := ring_buffer_get rb
    r.2 :: getN r.1 n

/-- Drain the buffer the way `main.c` does: `while(!ring_buffer_empty(&rb))
printf("%d ", ring_buffer_get(&rb));`, collecting the values; the fuel bounds
the number of loop iterations. -/
def drainFuel (rb : Ring_Buffer) : Nat → List Nat
  | 0 => []
  | n + 1 =>
    if ring_buffer_empty rb then []
    else
      let r := ring_buffer_get rb
      r.2 :: drainFuel r.1 n

/-- Index written by `ring_buffer_put` (V1):
`(++rb->back) & (RING_BUFFER_SIZE - 1)`, the pre-incremented back cursor
masked with bitwise AND instead of the modulo operator. -/
def ring_buffer_put_v1_index (rb : Ring_Buffer) : Nat :=
  ((rb.back + 1) % UINT_MOD) &&& (RING_BUFFER_SIZE - 1)

/-- `ring_buffer_put` (V1, `ringbuffer.c` 7/7/2014):
`rb->data[(++rb->back) & (RING_BUFFER_SIZE - 1)] = var;`. -/
def ring_buffer_put_v1 (rb : Ring_Buffer) (var : Nat) : Ring_Buffer :=
  { rb with back := (rb.back + 1) % UINT_MOD,
            data := rb.data.set (ring_buffer_put_v1_index rb) var }

/-- Index read by `ring_buffer_get` (V1) after the resynchronization:
`(++rb->front) & (RING_BUFFER_SIZE - 1)`. -/
def ring_buffer_get_v1_index (rb : Ring_Buffer) : Nat :=
  ((resyncFront rb.back rb.front + 1) % UINT_MOD) &&& (RING_BUFFER_SIZE - 1)

/-- `ring_buffer_get` (V1): the same resynchronization as V2, then
`return rb->data[(++rb->front) & (RING_BUFFER_SIZE - 1)];`. -/
def ring_buffer_get_v1 (rb : Ring_Buffer) : Ring_Buffer × Nat :=
  let f1 := (resyncFront rb.back rb.front + 1) % UINT_MOD
  ({ rb with front := f1 },
   rb.data.getD (f1 &&& (RING_BUFFER_SIZE - 1)) 0)

/-- One public operation of the V1 interface (V1 has no peek; `init`,
`clear`, `count`, `full` and `empty` are textually identical in V1 and V2). -/
inductive RBOp where
  | put (v : Nat)
  | get
  | clear
  | count
  | full
  | empty
deriving Repr, DecidableEq

/-- One step of the V2 implementation, returning the next state and the
numeric result of the call (0 for the void operations, the C truth value
for the predicates). -/
def stepV2 (rb : Ring_Buffer) : RBOp → Ring_Buffer × Nat
  | .put v => (ring_buffer_put rb v, 0)
  | .get => ring_buffer_get rb
  | .clear => (ring_buffer_clear rb, 0)
  | .count => (rb, ring_buffer_count rb)
  | .full => (rb, if ring_buffer_full rb then 1 else 0)
  | .empty => (rb, if ring_buffer_empty rb then 1 else 0)

/-- One step of the V1 implementation (bitwise-AND index wraparound). -/
def stepV1 (rb : Ring_Buffer) : RBOp → Ring_Buffer × Nat
  | .put v => (ring_buffer_put_v1 rb v, 0)
  | .get => ring_buffer_get_v1 rb
  | .clear => (ring_buffer_clear rb, 0)
  | .count => (rb, ring_buffer_count rb)
  | .full => (rb, if ring_buffer_full rb then 1 else 0)
  | .empty => (rb, if ring_buffer_empty rb then 1 else 0)

/-- Run a sequence of operations under V2, collecting every return value. -/
def runV2 : Ring_Buffer → List RBOp → Ring_Buffer × List Nat
  | rb, [] => (rb, [])
  | rb, op :: ops =>
    ((runV2 (stepV2 rb op).1 ops).1, (stepV2 rb op).2 :: (runV2 (stepV2 rb op).1 ops).2)

/-- Run a sequence of operations under V1, collecting every return value. -/
def runV1 : Ring_Buffer → List RBOp → Ring_Buffer × List Nat
  | rb, [] => (rb, [])
  | rb, op :: ops =>
    ((runV1 (stepV1 rb op).1 ops).1, (stepV1 rb op).2 :: (runV1 (stepV1 rb op).1 ops).2)

/-- States reachable from `ring_buffer_init` by any sequence of the public
operations (the observers `count`, `full` and `empty` do not change state). -/
inductive Reachable : Ring_Buffer → Prop where
  | init : Reachable ring_buffer_init
  | put (rb : Ring_Buffer) (v : Nat) : Reachable rb → Reachable (ring_buffer_put rb v)
  | get (rb : Ring_Buffer) : Reachable rb → Reachable (ring_buffer_get rb).1
  | peek (rb : Ring_Buffer) : Reachable rb → Reachable (ring_buffer_peek rb).1
  | clear (rb : Ring_Buffer) : Reachable rb → Reachable (ring_buffer_clear rb)

/-- States reachable from `ring_buffer_init` when `get` is only called on a
nonempty buffer and the write cursor never overflows 2 ^ 32 (fewer than
2 ^ 32 total puts). -/
inductive ReachableGuarded : Ring_Buffer → Prop where
  | init : ReachableGuarded ring_buffer_init
  | put (rb : Ring_Buffer) (v : Nat) : ReachableGuarded rb →
      rb.back + 1 < UINT_MOD → ReachableGuarded (ring_buffer_put rb v)
  | get (rb : Ring_Buffer) : ReachableGuarded rb →
      ring_buffer_empty rb = false → ReachableGuarded (ring_buffer_get rb).1
  | peek (rb : Ring_Buffer) : ReachableGuarded rb →
      ReachableGuarded (ring_buffer_peek rb).1
  | clear (rb : Ring_Buffer) : ReachableGuarded rb →
      ReachableGuarded (ring_buffer_clear rb)

/-- The state reached by `main.c` after `ring_buffer_init` and the six puts
`put(10) put(20) put(30) put(40) put(50) put(60)`. -/
def mainAfterPuts : Ring_Buffer :=
  putList ring_buffer_init [10, 20, 30, 40, 50, 60]

/-- C1: for capacity 4, after initializing and putting 10,20,30,40,50,60,
`full()` is true, `count()` is 4, and draining with repeated `get()` until
empty yields 30, 40, 50, 60 in that order (10 and 20 were overwritten). -/
theorem claim_C1_overwrite_demo :
    ring_buffer_full mainAfterPuts = true ∧
    ring_buffer_count mainAfterPuts = 4 ∧
    drainFuel mainAfterPuts 6 = [30, 40, 50, 60] := by
  refine ⟨rfl, rfl, rfl⟩

/-- Unfolding lemma: `ring_buffer_put` on an explicit record. -/
theorem ring_buffer_put_mk (f b : Nat) (d : List Nat) (v : Nat) :
    ring_buffer_put ⟨f, b, d⟩ v =
      ⟨f, (b + 1) % UINT_MOD, d.set (((b + 1) % UINT_MOD) % RING_BUFFER_SIZE) v⟩ := rfl

/-- Unfolding lemma: `ring_buffer_get` on an explicit record. -/
theorem ring_buffer_get_mk (f b : Nat) (d : List Nat) :
    ring_buffer_get ⟨f, b, d⟩ =
      (⟨(resyncFront b f + 1) % UINT_MOD, b, d⟩,
       d.getD (((resyncFront b f + 1) % UINT_MOD) % RING_BUFFER_SIZE) 0) := rfl

/-- Unfolding lemma: `ring_buffer_count` on an explicit record. -/
theorem ring_buffer_count_mk (f b : Nat) (d : List Nat) :
    ring_buffer_count ⟨f, b, d⟩ =
      if RING_BUFFER_SIZE ≤ usub b f then RING_BUFFER_SIZE else usub b f := by
  unfold ring_buffer_count ring_buffer_full
  by_cases h : RING_BUFFER_SIZE ≤ usub b f <;> simp [h]

/-- C2: for any sequence of at most `RING_BUFFER_SIZE` puts on a freshly
initialized buffer, `count()` equals the number of puts, and that many
subsequent `get()` calls return exactly the inserted values in FIFO order. -/
theorem claim_C2_fifo_within_capacity (vs : List Nat)
    (h : vs.length ≤ RING_BUFFER_SIZE) :
    ring_buffer_count (putList ring_buffer_init vs) = vs.length ∧
    getN (putList ring_buffer_init vs) vs.length = vs := by
  match vs with
  | [] =>
    exact ⟨rfl, rfl⟩
  | [a] =>
    constructor
    · simp only [putList, List.foldl, ring_buffer_init, ring_buffer_put_mk,
        ring_buffer_count_mk]
      norm_num [usub, UINT_MOD, RING_BUFFER_SIZE]
    · simp only [putList, List.foldl, ring_buffer_init, ring_buffer_put_mk,
        getN, ring_buffer_get_mk]
      norm_num [resyncFront, usub, UINT_MOD, RING_BUFFER_SIZE]
  | [a, b] =>
    constructor
    · simp only [putList, List.foldl, ring_buffer_init, ring_buffer_put_mk,
        ring_buffer_count_mk]
      norm_num [usub, UINT_MOD, RING_BUFFER_SIZE]
    · simp only [putList, List.foldl, ring_buffer_init, ring_buffer_put_mk,
        getN, ring_buffer_get_mk]
      norm_num [resyncFront, usub, UINT_MOD, RING_BUFFER_SIZE]
  | [a, b, c] =>
    constructor
    · simp only [putList, List.foldl, ring_buffer_init, ring_buffer_put_mk,
        ring_buffer_count_mk]
      norm_num [usub, UINT_MOD, RING_BUFFER_SIZE]
    · simp only [putList, List.foldl, ring_buffer_init, ring_buffer_put_mk,
        getN, ring_buffer_get_mk]
      norm_num [resyncFront, usub, UINT_MOD, RING_BUFFER_SIZE]
  | [a, b, c, d] =>
    constructor
    · simp only [putList, List.foldl, ring_buffer_init, ring_buffer_put_mk,
        ring_buffer_count_mk]
      norm_num [usub, UINT_MOD, RING_BUFFER_SIZE]
    · simp only [putList, List.foldl, ring_buffer_init, ring_buffer_put_mk,
        getN, ring_buffer_get_mk]
      norm_num [resyncFront, usub, UINT_MOD, RING_BUFFER_SIZE]
  | a :: b :: c :: d :: e :: rest =>
    simp [RING_BUFFER_SIZE] at h

/-- Witness for C2 at the concrete input [10, 20, 30]. -/
theorem claim_C2_fifo_within_capacity_witness :
    ring_buffer_count (putList ring_buffer_init [10, 20, 30]) = 3 ∧
    getN (putList ring_buffer_init [10, 20, 30]) 3 = [10, 20, 30] :=
  claim_C2_fifo_within_capacity [10, 20, 30] (by decide)

/-- C5: in every buffer state, `count()` is at most `RING_BUFFER_SIZE` (and,
being unsigned, at least 0): it returns `RING_BUFFER_SIZE` when `full()` holds
and the unsigned difference `back - front` otherwise. -/
theorem claim_C5_count_range (rb : Ring_Buffer) :
    ring_buffer_count rb ≤ RING_BUFFER_SIZE ∧
    ring_buffer_count rb =
      (if ring_buffer_full rb then RING_BUFFER_SIZE else usub rb.back rb.front) := by
  refine ⟨?_, rfl⟩
  unfold ring_buffer_count
  split_ifs with h
  · exact le_refl _
  · unfold ring_buffer_full at h
    simp only [decide_eq_true_eq] at h
    omega

/-- C9: `clear()` zeroes the storage array and sets the read cursor equal to
the write cursor while leaving the write cursor unchanged; the resulting
buffer is empty. -/
theorem claim_C9_clear_frame (rb : Ring_Buffer) :
    (ring_buffer_clear rb).data = List.replicate RING_BUFFER_SIZE 0 ∧
    (ring_buffer_clear rb).front = rb.back ∧
    (ring_buffer_clear rb).back = rb.back ∧
    ring_buffer_empty (ring_buffer_clear rb) = true := by
  refine ⟨rfl, rfl, rfl, ?_⟩
  simp [ring_buffer_clear, ring_buffer_empty]

/-- The resynchronization of the front cursor is idempotent: running the
`if (back - front >= RING_BUFFER_SIZE)` adjustment twice gives the same
front as running it once. -/
theorem resyncFront_idem (b f : Nat) :
    resyncFront b (resyncFront b f) = resyncFront b f := by
  simp only [resyncFront, usub, UINT_MOD, RING_BUFFER_SIZE]
  split_ifs <;> omega

/-- C6: in every buffer state, `peek()` followed immediately by `get()`
returns the same value from both calls, including when the
resynchronization branch fires during the peek. -/
theorem claim_C6_peek_then_get (rb : Ring_Buffer) :
    (ring_buffer_get (ring_buffer_peek rb).1).2 = (ring_buffer_peek rb).2 := by
  simp only [ring_buffer_peek, ring_buffer_get]
  rw [resyncFront_idem]

/-- C8: calling `get()` on a logically empty buffer (`front == back`) still
advances the front cursor to `back + 1` (mod 2 ^ 32); afterwards `empty()` is
false, `full()` is true (the unsigned difference wraps to a value at least
`RING_BUFFER_SIZE`), and `count()` returns `RING_BUFFER_SIZE`. -/
theorem claim_C8_get_on_empty (rb : Ring_Buffer) (h : rb.front = rb.back) :
    (ring_buffer_get rb).1.front = (rb.back + 1) % UINT_MOD ∧
    ring_buffer_empty (ring_buffer_get rb).1 = false ∧
    ring_buffer_full (ring_buffer_get rb).1 = true ∧
    ring_buffer_count (ring_buffer_get rb).1 = RING_BUFFER_SIZE := by
  have hr : resyncFront rb.back rb.back = rb.back := by
    simp only [resyncFront, usub, UINT_MOD, RING_BUFFER_SIZE]
    split_ifs with hc
    · exfalso; omega
    · rfl
  have hfront : (ring_buffer_get rb).1.front = (rb.back + 1) % UINT_MOD := by
    simp [ring_buffer_get, h, hr]
  have hback : (ring_buffer_get rb).1.back = rb.back := by
    simp [ring_buffer_get]
  have hempty : ring_buffer_empty (ring_buffer_get rb).1 = false := by
    simp only [ring_buffer_empty, hfront, hback, UINT_MOD, beq_eq_false_iff_ne, ne_eq]
    omega
  have hfull : ring_buffer_full (ring_buffer_get rb).1 = true := by
    simp only [ring_buffer_full, hfront, hback, usub, UINT_MOD, RING_BUFFER_SIZE,
      decide_eq_true_eq]
    omega
  have hcount : ring_buffer_count (ring_buffer_get rb).1 = RING_BUFFER_SIZE := by
    simp [ring_buffer_count, hfull]
  exact ⟨hfront, hempty, hfull, hcount⟩

/-- Witness for C8 on the freshly initialized (hence empty) buffer. -/
theorem claim_C8_get_on_empty_witness :
    (ring_buffer_get ring_buffer_init).1.front = 1 ∧
    ring_buffer_empty (ring_buffer_get ring_buffer_init).1 = false ∧
    ring_buffer_full (ring_buffer_get ring_buffer_init).1 = true ∧
    ring_buffer_count (ring_buffer_get ring_buffer_init).1 = RING_BUFFER_SIZE := by
  have h := claim_C8_get_on_empty ring_buffer_init rfl
  exact ⟨h.1, h.2.1, h.2.2.1, h.2.2.2⟩

/-- Masking with `RING_BUFFER_SIZE - 1` equals reducing modulo
`RING_BUFFER_SIZE`, because the size is the power of two 2 ^ 2. -/
theorem and_mask_eq_mod (x : Nat) :
    x &&& (RING_BUFFER_SIZE - 1) = x % RING_BUFFER_SIZE := by
  have h := Nat.and_pow_two_sub_one_eq_mod x 2
  norm_num at h
  simpa [RING_BUFFER_SIZE] using h

/-- C7: the V1 implementation (bitwise AND with `RING_BUFFER_SIZE - 1`) and
the V2 implementation (modulo operator) are observationally equivalent: put
and get agree on every state, and every operation sequence produces the same
states and the same return values under both. -/
theorem claim_C7_v1_v2_equivalent :
    (∀ rb v, ring_buffer_put_v1 rb v = ring_buffer_put rb v) ∧
    (∀ rb, ring_buffer_get_v1 rb = ring_buffer_get rb) ∧
    (∀ rb ops, runV1 rb ops = runV2 rb ops) := by
  have hput : ∀ rb v, ring_buffer_put_v1 rb v = ring_buffer_put rb v := by
    intro rb v
    simp [ring_buffer_put_v1, ring_buffer_put, ring_buffer_put_v1_index,
      ring_buffer_put_index, and_mask_eq_mod]
  have hget : ∀ rb, ring_buffer_get_v1 rb = ring_buffer_get rb := by
    intro rb
    simp [ring_buffer_get_v1, ring_buffer_get, and_mask_eq_mod]
  have hstep : ∀ rb op, stepV1 rb op = stepV2 rb op := by
    intro rb op
    cases op <;> simp [stepV1, stepV2, hput, hget]
  refine ⟨hput, hget, ?_⟩
  intro rb ops
  induction ops generalizing rb with
  | nil => rfl
  | cons op ops ih => simp [runV1, runV2, hstep, ih]

/-- The reported count never exceeds the capacity, in any state whatsoever. -/
theorem ring_buffer_count_le_size (rb : Ring_Buffer) :
    ring_buffer_count rb ≤ RING_BUFFER_SIZE := by
  unfold ring_buffer_count
  split_ifs with h
  · exact le_refl _
  · unfold ring_buffer_full at h
    simp only [decide_eq_true_eq] at h
    omega

/-- Counterexample to C3 as stated: after five puts from `init`, a reachable
state has unsigned difference `back - front` equal to 5, which exceeds
`RING_BUFFER_SIZE = 4` (put never forces the read cursor forward; only
get/peek clamp it lazily). -/
theorem claim_C3_counterexample :
    Reachable (putList ring_buffer_init [1, 1, 1, 1, 1]) ∧
    RING_BUFFER_SIZE <
      usub (putList ring_buffer_init [1, 1, 1, 1, 1]).back
        (putList ring_buffer_init [1, 1, 1, 1, 1]).front := by
  constructor
  · show Reachable (ring_buffer_put (ring_buffer_put (ring_buffer_put
      (ring_buffer_put (ring_buffer_put ring_buffer_init 1) 1) 1) 1) 1)
    exact Reachable.put _ 1 (Reachable.put _ 1 (Reachable.put _ 1
      (Reachable.put _ 1 (Reachable.put _ 1 Reachable.init))))
  · decide

/-- C3 amended: in every reachable state the occupied count reported by
`count()` is at most `RING_BUFFER_SIZE`; the raw cursor difference itself can
exceed the capacity after writes past capacity and is only clamped lazily by
the resynchronization in get/peek. -/
theorem claim_C3_count_never_exceeds (rb : Ring_Buffer) (_h : Reachable rb) :
    ring_buffer_count rb ≤ RING_BUFFER_SIZE :=
  ring_buffer_count_le_size rb

/-- Witness for the amended C3 at the initial state. -/
theorem claim_C3_count_never_exceeds_witness :
    ring_buffer_count ring_buffer_init ≤ RING_BUFFER_SIZE :=
  claim_C3_count_never_exceeds ring_buffer_init Reachable.init

/-- Counterexample to C4 as stated: calling `get()` once on the freshly
initialized (empty) buffer yields a reachable state whose write cursor 0 is
strictly below its read cursor 1. -/
theorem claim_C4_counterexample :
    Reachable (ring_buffer_get ring_buffer_init).1 ∧
    (ring_buffer_get ring_buffer_init).1.back <
      (ring_buffer_get ring_buffer_init).1.front :=
  ⟨Reachable.get _ Reachable.init, by decide⟩

/-- Invariant of guarded reachability: when `get` is only called on nonempty
buffers and the write cursor never overflows, the cursors stay ordered and
the write cursor stays below 2 ^ 32. -/
theorem guarded_cursor_invariant (rb : Ring_Buffer) (h : ReachableGuarded rb) :
    rb.front ≤ rb.back ∧ rb.back < UINT_MOD := by
  induction h with
  | init =>
    constructor
    · exact le_refl 0
    · norm_num [ring_buffer_init, UINT_MOD]
  | put rb v hr hb ih =>
    obtain ⟨ih1, ih2⟩ := ih
    simp only [ring_buffer_put]
    have hm : (rb.back + 1) % UINT_MOD = rb.back + 1 := Nat.mod_eq_of_lt hb
    constructor
    · omega
    · simp only [UINT_MOD] at hm ⊢
      omega
  | get rb hr he ih =>
    obtain ⟨ih1, ih2⟩ := ih
    have hne : rb.back ≠ rb.front := by
      simpa [ring_buffer_empty] using he
    simp only [ring_buffer_get]
    simp only [UINT_MOD] at ih2
    constructor
    · simp only [resyncFront, usub, UINT_MOD, RING_BUFFER_SIZE]
      split_ifs with hc <;> omega
    · simpa only [UINT_MOD] using ih2
  | peek rb hr ih =>
    obtain ⟨ih1, ih2⟩ := ih
    simp only [ring_buffer_peek]
    simp only [UINT_MOD] at ih2
    constructor
    · simp only [resyncFront, usub, UINT_MOD, RING_BUFFER_SIZE]
      split_ifs with hc <;> omega
    · simpa only [UINT_MOD] using ih2
  | clear rb hr ih =>
    obtain ⟨ih1, ih2⟩ := ih
    simp only [ring_buffer_clear]
    exact ⟨le_refl _, ih2⟩

/-- C4 amended: `write_cursor >= read_cursor` holds in every state reachable
from `init()` provided `get()` is never called on a logically empty buffer
and the write cursor does not overflow 2 ^ 32 (calling `get()` on an empty
buffer pushes the read cursor one past the write cursor). -/
theorem claim_C4_cursor_order_guarded (rb : Ring_Buffer)
    (h : ReachableGuarded rb) :
    rb.front ≤ rb.back :=
  (guarded_cursor_invariant rb h).1

/-- Witness for the amended C4 at the initial state. -/
theorem claim_C4_cursor_order_guarded_witness :
    ring_buffer_init.front ≤ ring_buffer_init.back :=
  claim_C4_cursor_order_guarded ring_buffer_init ReachableGuarded.init

/-- C10: every index used to access the storage array — by put, get and peek
in V2 and by put and get in V1 — is reduced below `RING_BUFFER_SIZE` by the
modulo or the bitwise mask before the access, and every reachable state keeps
the storage array at length `RING_BUFFER_SIZE`, so no access can be out of
bounds for any call sequence. -/
theorem claim_C10_indices_in_range :
    (∀ rb : Ring_Buffer,
      ring_buffer_put_index rb < RING_BUFFER_SIZE ∧
      ring_buffer_get_index rb < RING_BUFFER_SIZE ∧
      ring_buffer_peek_index rb < RING_BUFFER_SIZE ∧
      ring_buffer_put_v1_index rb < RING_BUFFER_SIZE ∧
      ring_buffer_get_v1_index rb < RING_BUFFER_SIZE) ∧
    (∀ rb : Ring_Buffer, Reachable rb →
      rb.data.length = RING_BUFFER_SIZE) := by
  constructor
  · intro rb
    refine ⟨?_, ?_, ?_, ?_, ?_⟩ <;>
      simp only [ring_buffer_put_index, ring_buffer_get_index,
        ring_buffer_peek_index, ring_buffer_put_v1_index,
        ring_buffer_get_v1_index, and_mask_eq_mod] <;>
      simp only [UINT_MOD, RING_BUFFER_SIZE] <;>
      omega
  · intro rb h
    induction h with
    | init => rfl
    | put rb v hr ih =>
      simpa [ring_buffer_put] using ih
    | get rb hr ih =>
      simpa [ring_buffer_get] using ih
    | peek rb hr ih =>
      simpa [ring_buffer_peek] using ih
    | clear rb hr ih =>
      simp [ring_buffer_clear]

/-- Witness for C10 at the initial state. -/
theorem claim_C10_indices_in_range_witness :
    (ring_buffer_put_index ring_buffer_init < RING_BUFFER_SIZE ∧
      ring_buffer_get_index ring_buffer_init < RING_BUFFER_SIZE ∧
      ring_buffer_peek_index ring_buffer_init < RING_BUFFER_SIZE ∧
      ring_buffer_put_v1_index ring_buffer_init < RING_BUFFER_SIZE ∧
      ring_buffer_get_v1_index ring_buffer_init < RING_BUFFER_SIZE) ∧
    ring_buffer_init.data.length = RING_BUFFER_SIZE :=
  ⟨claim_C10_indices_in_range.1 ring_buffer_init,
   claim_C10_indices_in_range.2 ring_buffer_init Reachable.init⟩
